import Mathlib

/-!
MCproDemo_PSYQ: the menu loop of `MAIN.C`

A shallow embedding of `src/MAIN.C`: the file-scope variables and the two
hardware registers the program touches form the `Machine` record, every C
function becomes a Lean function on that record, and every call that leaves
the translation unit (PsyQ library calls, the MemCard PRO calls, COP0 and
I_MASK accesses) is appended to `Machine.trace`, in program order.

Machine words are 32 bits wide (`int` and `unsigned long` on the R3000); they
are natural numbers here.  The program only combines them with `&`, `|` and
`^`, which never leave the 32-bit range, so no reduction modulo `2^32` is
needed; the one `not` instruction is applied to the literal `1` and is
written as its 32-bit value `0xFFFFFFFE`.
-/

namespace MCproDemo

/-! ## Data model -/

/-- The MemCard PRO operations of `cyblib/mcpro.h` that `MAIN.C` calls, with
their arguments. -/
inductive Cmd
  | PrevCH (port : Nat)
  | NextCH (port : Nat)
  | PrevDIR (port : Nat)
  | NextDIR (port : Nat)
  | Ping (port : Nat)
  | SendGameID (port01 : Nat) (len : Nat) (gameID : String)
  deriving DecidableEq, Repr

/-- Everything `MAIN.C` does outside its own variables: library calls,
accesses to COP0 register 12 and to the I_MASK register, the external
MemCard PRO calls and the jump to the reset vector. -/
inductive Event
  | ClearOTag (slot : Nat)
  | VSync
  | PutDispEnv (slot : Nat)
  | PutDrawEnv (slot : Nat)
  | DrawOTag (slot : Nat)
  | FntFlush
  | FntPrint (fmt : String) (args : List Nat)
  | Delay
  | PadRead
  | mfc0 (value : Nat)
  | mtc0 (value : Nat)
  | readIMASK (value : Nat)
  | writeIMASK (value : Nat)
  | MemCardPro (cmd : Cmd)
  | Reboot
  | printf (text : String)
  deriving DecidableEq, Repr

/-- The file-scope variables of `MAIN.C` (lines 47-58), the COP0 status
register (`$12`), the I_MASK register at `0xBF801074`, and the log of
events so far. -/
structure Machine where
  activeBuffer : Nat
  lastPadVals : Nat
  padVals : Nat
  lastIRQMask : Nat
  cop0r12 : Nat
  I_MASK : Nat
  trace : List Event
  deriving DecidableEq, Repr

/-- Line 57: `static ulong wasInCritical = 0;`.  No statement of the file
assigns this variable (the `wasInCritical` assigned in `Countdown` is a block
local of the same name) and it has internal linkage, so it keeps its
initial value in every execution. -/
def wasInCritical : Nat := 0

/-- Append one event to the log. -/
def emit (e : Event) (m : Machine) : Machine :=
  { m with trace := m.trace ++ [e] }

/-! ## Pad handling (lines 60-83) -/

/-- Function `UpdatePads` (lines 60-64), with `reading` the value `PadRead(0)`
returns. -/
def UpdatePads (reading : Nat) (m : Machine) : Machine :=
  let m := { m with lastPadVals := m.padVals }
  let m := emit .PadRead m
  { m with padVals := reading }

/-- Function `Released` (lines 67-83): the returned flag and the machine after
the call.  The flag is computed first, the test for the reading `0xFFFFFFFF`
comes second, the `^=` on `lastPadVals` third. -/
def Released (inButton : Nat) (m : Machine) : Bool × Machine :=
  let returnVal : Bool := (m.padVals &&& inButton == 0) && (m.lastPadVals &&& inButton != 0)
  if m.padVals = 0xFFFFFFFF then (false, m)
  else if returnVal then (returnVal, { m with lastPadVals := m.lastPadVals ^^^ inButton })
  else (returnVal, m)

/-! ## Frame handling (lines 86-105) -/

/-- Function `StartDraw` (lines 86-94): `ClearOTag(ot[activeBuffer], OTLEN)`,
`VSync(0)`, `activeBuffer ^= 1`. -/
def StartDraw (m : Machine) : Machine :=
  let m := emit (.ClearOTag m.activeBuffer) m
  let m := emit .VSync m
  { m with activeBuffer := m.activeBuffer ^^^ 1 }

/-- Function `EndDraw` (lines 97-105): `PutDispEnv(&disp[activeBuffer])`,
`PutDrawEnv(&draw[activeBuffer])`, `DrawOTag(ot[activeBuffer ^ 1])`,
`FntFlush(-1)`. -/
def EndDraw (m : Machine) : Machine :=
  let m := emit (.PutDispEnv m.activeBuffer) m
  let m := emit (.PutDrawEnv m.activeBuffer) m
  let m := emit (.DrawOTag (m.activeBuffer ^^^ 1)) m
  emit .FntFlush m

/-- Library call `FntPrint(fmt, args...)`. -/
def FntPrint (fmt : String) (args : List Nat) (m : Machine) : Machine :=
  emit (.FntPrint fmt args) m

/-- Function `Delay` (lines 122-131): a busy wait of 7000000 `nop`s; it changes
no variable. -/
def Delay (m : Machine) : Machine :=
  emit .Delay m

/-! ## Critical sections (lines 135-186) -/

/-- Function `InCriticalSection` (lines 135-146): reads COP0 `$12` and returns
`!(value & 0x01)`. -/
def InCriticalSection (m : Machine) : Bool × Machine :=
  let returnVal := m.cop0r12
  (returnVal &&& 0x01 == 0, emit (.mfc0 returnVal) m)

/-- Function `EnterCritical` (lines 149-168): `li tmp1,1; not tmp1; mfc0 tmp0,$12; and tmp0,tmp0,tmp1;
mtc0 tmp0,$12`, returning what `InCriticalSection` said before. -/
def EnterCritical (m : Machine) : Bool × Machine :=
  let (oldVal, m) := InCriticalSection m
  let tmp1 := 0xFFFFFFFE
  let tmp0 := m.cop0r12
  let m := emit (.mfc0 tmp0) m
  let tmp0 := tmp0 &&& tmp1
  (oldVal, emit (.mtc0 tmp0) { m with cop0r12 := tmp0 })

/-- Function `ExitCritical` (lines 171-186): `mfc0 tmp0,$12; ori tmp0,tmp0,0x01; ori tmp0,tmp0,0xFF00;
mtc0 tmp0,$12`. -/
def ExitCritical (m : Machine) : Machine :=
  let tmp0 := m.cop0r12
  let m := emit (.mfc0 tmp0) m
  let tmp0 := tmp0 ||| 0x01
  let tmp0 := tmp0 ||| 0xFF00
  emit (.mtc0 tmp0) { m with cop0r12 := tmp0 }

/-! ## The countdown guard (lines 190-237) -/

/-- The `for (i = 3; i > 0; i--)` loop of `Countdown`, started at `i`. -/
def countdownFrames (isPreCounter : Bool) : Nat → Machine → Machine
  | 0, m => m
  | i + 1, m =>
    let m := StartDraw m
    let m :=
      if isPreCounter then FntPrint "Sending in %d (Start Logic Analsyer now)" [i + 1, 0] m
      else FntPrint "Restoring control in %d (Stop Logic Analyser now)" [i + 1, 0] m
    let m := EndDraw m
    let m := Delay m
    countdownFrames isPreCounter i m

/-- Function `Countdown` (lines 190-237).  The value of `EnterCritical()` goes to the block-local
`wasInCritical` of line 204 and is dropped at the end of that block; the test
of line 231 reads the file-scope variable. -/
def Countdown (isPreCounter : Bool) (m : Machine) : Machine :=
  let m := StartDraw m
  let m := EndDraw m
  let m :=
    if isPreCounter then
      let (_, m) := EnterCritical m
      let m := emit (.readIMASK m.I_MASK) m
      { m with lastIRQMask := m.I_MASK }
    else m
  let m := countdownFrames isPreCounter 3 m
  if !isPreCounter then
    if wasInCritical = 0 then
      let m := ExitCritical m
      emit (.writeIMASK m.lastIRQMask) { m with I_MASK := m.lastIRQMask }
    else m
  else m

/-- The guarded call pattern of lines 244-246 and 285-287:
`Countdown(true); returnVal = op(); Countdown(false);`. -/
def guarded (op : Machine → Nat × Machine) (m : Machine) : Nat × Machine :=
  let m := Countdown true m
  let (returnVal, m) := op m
  (returnVal, Countdown false m)

/-! ## The menu loop (lines 108-119 and 240-357) -/

/-- What `MAIN.C` takes from headers outside the source tree: the pad button
masks of `libetc.h`, the port selector of `cyblib/mcpro.h`, and the status
code each MemCard PRO call returns. -/
structure Externals where
  PADL1 : Nat
  PADR1 : Nat
  PADL2 : Nat
  PADR2 : Nat
  PADstart : Nat
  PADRdown : Nat
  PADRleft : Nat
  PADRup : Nat
  PADRright : Nat
  MCPRO_PORT_0 : Nat
  status : Cmd → Nat

/-- A call of one of the `MemCardPro_*` functions: an opaque external
operation that returns a status code. -/
def MemCardPro (X : Externals) (cmd : Cmd) (m : Machine) : Nat × Machine :=
  (X.status cmd, emit (.MemCardPro cmd) m)

/-- How far a run has come on a finite list of pad readings: control is
back at the caller with the readings that are left, or the program jumped to
the reset vector, or it waits in `PadRead` for a reading the list does not
have. -/
inductive Outcome
  | running (pads : List Nat) (m : Machine)
  | rebooted (m : Machine)
  | starved (m : Machine)
  deriving DecidableEq, Repr

/-- The machine an outcome stopped in. -/
def Outcome.machine : Outcome → Machine
  | .running _ m => m
  | .rebooted m => m
  | .starved m => m

/-- Sequencing: go on with `k` when control is back at the caller. -/
def Outcome.bind (o : Outcome) (k : List Nat → Machine → Outcome) : Outcome :=
  match o with
  | .running pads m => k pads m
  | .rebooted m => .rebooted m
  | .starved m => .starved m

/-- Function `QuickMessage` (lines 108-119): loops while neither `Released(PADRdown)` nor
`Released(PADstart)`; each turn of the loop takes one pad reading. -/
def QuickMessage (X : Externals) (message : String) (param0 param1 : Nat) :
    List Nat → Machine → Outcome
  | pads, m =>
    let (r, m) := Released X.PADRdown m
    if r then .running pads m
    else
      let (r, m) := Released X.PADstart m
      if r then .running pads m
      else
        let m := StartDraw m
        let m := FntPrint message [param0, param1] m
        let m := FntPrint "\n\n Press X to continue" [] m
        match pads with
        | [] => .starved m
        | reading :: pads =>
          let m := UpdatePads reading m
          let m := EndDraw m
          QuickMessage X message param0 param1 pads m

/-- Function `SendGameID` (lines 240-249). -/
def SendGameID (X : Externals) (port01 : Nat) (gameID : String)
    (pads : List Nat) (m : Machine) : Outcome :=
  let (returnVal, m) := guarded (MemCardPro X (.SendGameID port01 gameID.utf8ByteSize gameID)) m
  QuickMessage X "Got return val %d\n" returnVal 0 pads m

/-- The static menu text of lines 266-279. -/
def menuText (m : Machine) : Machine :=
  let m := FntPrint "\n" [] m
  let m := FntPrint "MCPRO/PSIO Test Program\n" [] m
  let m := FntPrint " \n" [] m
  let m := FntPrint "Key Combos:\n\n" [] m
  let m := FntPrint "    X: Ping Card\n" [] m
  let m := FntPrint "   []: Send cdrom:SCUS_944.55;1\n" [] m
  let m := FntPrint "   /\\: Send SCUS_944.55\n" [] m
  let m := FntPrint "    O: Send VeryLongFileNameTestEndingWith...\n" [] m
  let m := FntPrint "L1/R1: Change channel\n" [] m
  let m := FntPrint "L2/R2: Change game\n" [] m
  let m := FntPrint "start: Reboot\n" [] m
  FntPrint " \n" [] m

/-- The shape of the four navigation blocks (lines 282-315):
`if (Released(button)) { Countdown(true); returnVal = cmd; Countdown(false); }`. -/
def navBlock (X : Externals) (button : Nat) (cmd : Cmd) (m : Machine) : Machine :=
  let (r, m) := Released button m
  if r then (guarded (MemCardPro X cmd) m).2 else m

/-- The ping block (lines 324-333). -/
def pingBlock (X : Externals) (pads : List Nat) (m : Machine) : Outcome :=
  let (r, m) := Released X.PADRdown m
  if r then
    let (returnVal, m) := guarded (MemCardPro X (.Ping X.MCPRO_PORT_0)) m
    QuickMessage X "Got return val %d\n" returnVal 0 pads m
  else .running pads m

/-- The shape of the three send blocks (lines 336-353):
`if (Released(button)) { SendGameID(MCPRO_PORT_0, gameID); }`. -/
def sendBlock (X : Externals) (button : Nat) (gameID : String)
    (pads : List Nat) (m : Machine) : Outcome :=
  let (r, m) := Released button m
  if r then SendGameID X X.MCPRO_PORT_0 gameID pads m else .running pads m

/-- One execution of the body of the `while (1)` loop of `DrawLoop`
(lines 262-355). -/
def DrawLoopBody (X : Externals) (pads : List Nat) (m : Machine) : Outcome :=
  let m := StartDraw m
  match pads with
  | [] => .starved m
  | reading :: pads =>
    let m := UpdatePads reading m
    let m := menuText m
    let m := navBlock X X.PADL1 (.PrevCH X.MCPRO_PORT_0) m
    let m := navBlock X X.PADR1 (.NextCH X.MCPRO_PORT_0) m
    let m := navBlock X X.PADL2 (.PrevDIR X.MCPRO_PORT_0) m
    let m := navBlock X X.PADR2 (.NextDIR X.MCPRO_PORT_0) m
    let (r, m) := Released X.PADstart m
    if r then .rebooted (emit .Reboot m)
    else
      (pingBlock X pads m).bind fun pads m =>
      (sendBlock X X.PADRleft "cdrom:SCUS_944.55;1" pads m).bind fun pads m =>
      (sendBlock X X.PADRup "SCUS_944.55" pads m).bind fun pads m =>
      (sendBlock X X.PADRright
        "VeryLongFileNameTestEndingWithAPredictableBytePattern010101" pads m).bind fun pads m =>
      .running pads (EndDraw m)

/-- The `while (1)` loop, cut off after `n` executions of its body. -/
def DrawLoopFrom (X : Externals) : Nat → List Nat → Machine → Outcome
  | 0, pads, m => .running pads m
  | n + 1, pads, m =>
    match DrawLoopBody X pads m with
    | .running pads m => DrawLoopFrom X n pads m
    | .rebooted m => .rebooted m
    | .starved m => .starved m

/-- Function `DrawLoop` (lines 251-357), observed for `n` executions of the loop body. -/
def DrawLoop (X : Externals) (n : Nat) (pads : List Nat) (m : Machine) : Outcome :=
  let m := { m with padVals := 0 }
  let m := { m with lastPadVals := 0 }
  let m := emit (.printf "Program started...\n") m
  DrawLoopFrom X n pads m

/-! ## Observations on traces -/

/-- The two frame functions, as names of calls. -/
inductive DrawCall
  | StartDraw
  | EndDraw
  deriving DecidableEq, Repr

/-- Run a sequence of `StartDraw` and `EndDraw` calls. -/
def runCalls : List DrawCall → Machine → Machine
  | [], m => m
  | .StartDraw :: cs, m => runCalls cs (StartDraw m)
  | .EndDraw :: cs, m => runCalls cs (EndDraw m)

/-- The frame call an event belongs to: `ClearOTag` is issued by `StartDraw`
and by nothing else, once per call; `DrawOTag` likewise by `EndDraw`. -/
def Event.drawCall : Event → Option DrawCall
  | .ClearOTag _ => some .StartDraw
  | .DrawOTag _ => some .EndDraw
  | _ => none

/-- The `StartDraw` and `EndDraw` calls of a trace, in order. -/
def drawCalls (t : List Event) : List DrawCall :=
  t.filterMap Event.drawCall

/-- The external command of an event, if it is a MemCard PRO call. -/
def Event.command : Event → Option Cmd
  | .MemCardPro cmd => some cmd
  | _ => none

/-- The MemCard PRO commands of a trace, in order. -/
def commands (t : List Event) : List Cmd :=
  t.filterMap Event.command

/-- Scan a sequence of frame calls from `d` open frames (a `StartDraw` opens
one, an `EndDraw` closes one): the number of open frames at the end, or `none`
when an `EndDraw` finds no open frame or a `StartDraw` finds `bound` open. -/
def nesting (bound : Nat) : Nat → List DrawCall → Option Nat
  | d, [] => some d
  | d, .StartDraw :: cs => if d < bound then nesting bound (d + 1) cs else none
  | d, .EndDraw :: cs => if 0 < d then nesting bound (d - 1) cs else none

/-- Strict alternation beginning with `StartDraw`: never more than one open
frame. -/
def alternates (cs : List DrawCall) : Bool :=
  (nesting 1 0 cs).isSome

/-- The release edge of the specification: `b` absent from the current
reading `c` and present in the previous reading `p`. -/
def releaseEdge (p c b : Nat) : Bool :=
  (c &&& b == 0) && (p &&& b != 0)

/-- The button masks and port selector with the bit positions of the PsyQ
`libetc.h` (L2, R2, L1, R1 on bits 0-3, triangle, circle, cross, square on
bits 4-7, start on bit 11), port 0, and every external call returning 0. -/
def sdk : Externals where
  PADL1 := 4
  PADR1 := 8
  PADL2 := 1
  PADR2 := 2
  PADstart := 2048
  PADRdown := 64
  PADRleft := 128
  PADRup := 16
  PADRright := 32
  MCPRO_PORT_0 := 0
  status := fun _ => 0

/-- A machine at rest: all variables zero, interrupts enabled with every
interrupt class allowed, I_MASK as given, empty log. -/
def idle (imask : Nat) : Machine where
  activeBuffer := 0
  lastPadVals := 0
  padVals := 0
  lastIRQMask := 0
  cop0r12 := 0xFF01
  I_MASK := imask
  trace := []

/-- A machine inside an outer critical section: as `idle`, but with bit 0
of the status register clear. -/
def inCritical (imask : Nat) : Machine :=
  { idle imask with cop0r12 := 0xFF00 }

/-- The nine button masks the menu loop tests, in the order it tests them. -/
def Externals.buttons (X : Externals) : List Nat :=
  [X.PADL1, X.PADR1, X.PADL2, X.PADR2, X.PADstart, X.PADRdown, X.PADRleft, X.PADRup,
   X.PADRright]

/-- The button masks are 32-bit words that share no bit. -/
def Externals.distinctButtons (X : Externals) : Prop :=
  X.buttons.Pairwise (fun a b => a &&& b = 0) ∧ ∀ b ∈ X.buttons, b < 2 ^ 32

/-- The frame calls of a run from `m` to the outcome `o` are those of `m`
followed by calls that keep between 0 and 2 frames open when scanned from `d`
open frames, and that end with `d2` open frames when control returns. -/
def FrameStep (d d2 : Nat) (m : Machine) (o : Outcome) : Prop :=
  ∃ D, drawCalls o.machine.trace = drawCalls m.trace ++ D ∧
    match o with
    | .running _ _ => nesting 2 d D = some d2
    | _ => (nesting 2 d D).isSome = true

/-- The frame calls of one guarded command: the eight frames of the two
countdowns, each opened and closed. -/
def guardedCalls : List DrawCall :=
  [.StartDraw, .EndDraw, .StartDraw, .EndDraw, .StartDraw, .EndDraw, .StartDraw, .EndDraw,
   .StartDraw, .EndDraw, .StartDraw, .EndDraw, .StartDraw, .EndDraw, .StartDraw, .EndDraw]

/-- What an outcome hands back to its caller, seen from the pad side: the
readings not yet taken and the values of `lastPadVals` and `padVals`; `none`
when control does not come back. -/
def Outcome.padView : Outcome → Option (List Nat × Nat × Nat)
  | .running pads m => some (pads, m.lastPadVals, m.padVals)
  | .rebooted _ => none
  | .starved _ => none

/-- The "press to continue" prompt in terms of pad readings only, from the
pair `last`, `cur` of the previous and the current reading: it is left as soon
as the release-edge of cross, or else of start, is true, and that edge is
used up (its mask is toggled in `last`); until then it takes one more reading
per frame.  The result is the readings left and the pad pair at the moment
the prompt is left, or `none` when the readings run out first. -/
def promptPads (X : Externals) : List Nat → Nat → Nat → Option (List Nat × Nat × Nat)
  | pads, last, cur =>
    if releaseEdge last cur X.PADRdown then some (pads, last ^^^ X.PADRdown, cur)
    else if releaseEdge last cur X.PADstart then some (pads, last ^^^ X.PADstart, cur)
    else
      match pads with
      | [] => none
      | reading :: pads => promptPads X pads cur reading

/-- The commands dispatched by a sequence of button tests that each end in
the prompt, in terms of pad readings only: every test whose release-edge is
true on the pad pair current when the test is reached dispatches its command
and then waits in the prompt; the next test sees the pad pair the prompt left.
A test whose release-edge is false dispatches nothing and changes nothing. -/
def dispatchFrom (X : Externals) : List (Nat × Cmd) → List Nat → Nat → Nat → List Cmd
  | [], _, _, _ => []
  | (button, cmd) :: tests, pads, last, cur =>
    if releaseEdge last cur button then
      cmd :: match promptPads X pads (last ^^^ button) cur with
        | none => []
        | some (pads, last, cur) => dispatchFrom X tests pads last cur
    else dispatchFrom X tests pads last cur

/-- The four tests of the loop body that end in the prompt (lines 324-353),
in the order of the source: cross pings, square, triangle and circle send
their identifier. -/
def promptTests (X : Externals) : List (Nat × Cmd) :=
  [(X.PADRdown, .Ping X.MCPRO_PORT_0),
   (X.PADRleft, .SendGameID X.MCPRO_PORT_0 "cdrom:SCUS_944.55;1".utf8ByteSize
      "cdrom:SCUS_944.55;1"),
   (X.PADRup, .SendGameID X.MCPRO_PORT_0 "SCUS_944.55".utf8ByteSize "SCUS_944.55"),
   (X.PADRright, .SendGameID X.MCPRO_PORT_0
      "VeryLongFileNameTestEndingWithAPredictableBytePattern010101".utf8ByteSize
      "VeryLongFileNameTestEndingWithAPredictableBytePattern010101")]

/-- Two values of `lastPadVals` that agree on every button in `bs`. -/
def agreeOn (bs : List Nat) (l l2 : Nat) : Prop :=
  ∀ b ∈ bs, l &&& b = l2 &&& b

/-! ## Bit-level facts about the constants of the program -/

theorem testBit_FFFFFFFE (i : Nat) :
    Nat.testBit 0xFFFFFFFE i = (decide (1 ≤ i) && decide (i < 32)) := by
  by_cases h : i < 32
  · interval_cases i <;> rfl
  · have h2 : (0xFFFFFFFE : Nat) < 2 ^ i :=
      lt_of_lt_of_le (by norm_num) (Nat.pow_le_pow_right (by norm_num) (Nat.le_of_not_lt h))
    rw [Nat.testBit_lt_two_pow h2]
    simp [h]

theorem testBit_FF01 (i : Nat) :
    Nat.testBit 0xFF01 i = (decide (i = 0) || (decide (8 ≤ i) && decide (i < 16))) := by
  by_cases h : i < 16
  · interval_cases i <;> rfl
  · have h2 : (0xFF01 : Nat) < 2 ^ i :=
      lt_of_lt_of_le (by norm_num) (Nat.pow_le_pow_right (by norm_num) (Nat.le_of_not_lt h))
    rw [Nat.testBit_lt_two_pow h2]
    simp [h]
    omega

theorem testBit_of_lt_word {s i : Nat} (hs : s < 2 ^ 32) (hi : 32 ≤ i) :
    s.testBit i = false :=
  Nat.testBit_lt_two_pow (lt_of_lt_of_le hs (Nat.pow_le_pow_right (by norm_num) hi))

theorem and_FFFFFFFE_testBit (s i : Nat) (hs : s < 2 ^ 32) :
    (s &&& 0xFFFFFFFE).testBit i = (decide (i ≠ 0) && s.testBit i) := by
  rw [Nat.testBit_and, testBit_FFFFFFFE]
  by_cases h0 : i = 0
  · subst h0; simp
  · by_cases h32 : i < 32
    · have : 1 ≤ i := Nat.one_le_iff_ne_zero.mpr h0
      simp [h0, h32, this]
    · simp [testBit_of_lt_word hs (Nat.le_of_not_lt h32)]

theorem enter_exit_word (s : Nat) (hs : s < 2 ^ 32) :
    (s &&& 0xFFFFFFFE ||| 0x01) ||| 0xFF00 = s ||| 0xFF01 := by
  apply Nat.eq_of_testBit_eq
  intro i
  have e : (0x01 : Nat) ||| 0xFF00 = 0xFF01 := by decide
  rw [Nat.or_assoc, e, Nat.testBit_or, Nat.testBit_or, and_FFFFFFFE_testBit s i hs, testBit_FF01]
  by_cases h0 : i = 0
  · subst h0; simp
  · simp [h0]

theorem xor_one_xor_one (a : Nat) : a ^^^ 1 ^^^ 1 = a := by
  rw [Nat.xor_assoc]
  simp

theorem and_one_eq_zero_iff (s : Nat) : s &&& 1 = 0 ↔ s.testBit 0 = false := by
  rw [Nat.testBit_zero, Nat.and_one_is_mod]
  simp

/-! ## Critical sections and the countdown guard -/

/-- C10: for every 32-bit status word, `EnterCritical` clears bit 0 and
nothing else and returns true exactly when bit 0 was already clear;
`ExitCritical` ors in `0x0000FF01`; one after the other gives the word or
`0x0000FF01`, which differs from the word at most in bit 0 and bits 8..15 and
equals it exactly when those nine bits were all set. -/
theorem C10_status_word (m : Machine) (hs : m.cop0r12 < 2 ^ 32) :
    (∀ i, (EnterCritical m).2.cop0r12.testBit i = (decide (i ≠ 0) && m.cop0r12.testBit i))
    ∧ ((EnterCritical m).1 = true ↔ m.cop0r12.testBit 0 = false)
    ∧ (ExitCritical m).cop0r12 = m.cop0r12 ||| 0x0000FF01
    ∧ (ExitCritical (EnterCritical m).2).cop0r12 = m.cop0r12 ||| 0x0000FF01
    ∧ (∀ i, i ≠ 0 → ¬ (8 ≤ i ∧ i ≤ 15) →
        (m.cop0r12 ||| 0x0000FF01).testBit i = m.cop0r12.testBit i)
    ∧ (m.cop0r12 ||| 0x0000FF01 = m.cop0r12 ↔
        (m.cop0r12.testBit 0 = true ∧ ∀ i, 8 ≤ i → i ≤ 15 → m.cop0r12.testBit i = true)) := by
  refine ⟨?_, ?_, ?_, ?_, ?_, ?_⟩
  · intro i
    exact and_FFFFFFFE_testBit m.cop0r12 i hs
  · simp [EnterCritical, InCriticalSection, and_one_eq_zero_iff]
  · simp [ExitCritical, emit, Nat.or_assoc]
  · simp only [ExitCritical, EnterCritical, InCriticalSection, emit]
    exact enter_exit_word m.cop0r12 hs
  · intro i h0 h8
    rw [Nat.testBit_or, testBit_FF01]
    have : ¬ (8 ≤ i ∧ i < 16) := fun h => h8 ⟨h.1, by omega⟩
    simp [h0, this]
  · constructor
    · intro h
      have hb : ∀ i, (m.cop0r12.testBit i || Nat.testBit 0xFF01 i) = m.cop0r12.testBit i := by
        intro i
        rw [← Nat.testBit_or, h]
      refine ⟨?_, ?_⟩
      · have := hb 0
        rw [testBit_FF01] at this
        simpa using this
      · intro i h8 h15
        have := hb i
        rw [testBit_FF01] at this
        have h16 : i < 16 := by omega
        simpa [h8, h16] using this
    · rintro ⟨h0, h8⟩
      apply Nat.eq_of_testBit_eq
      intro i
      rw [Nat.testBit_or, testBit_FF01]
      by_cases hi0 : i = 0
      · subst hi0; simp [h0]
      · by_cases hi : 8 ≤ i ∧ i < 16
        · simp [h8 i hi.1 (by omega)]
        · have : ¬ (8 ≤ i ∧ i < 16) := hi
          simp only [hi0, decide_False, Bool.false_or]
          rcases Nat.lt_or_ge i 8 with h | h
          · simp [Nat.not_le.mpr h]
          · have : ¬ i < 16 := fun h16 => hi ⟨h, h16⟩
            simp [this]

/-- A status word with interrupts enabled satisfies the hypothesis of C10. -/
theorem C10_status_word_witness :
    (idle 0).cop0r12 < 2 ^ 32 ∧ (EnterCritical (idle 0)).2.cop0r12.testBit 0 = false :=
  ⟨by decide, by
    have h := (C10_status_word (idle 0) (by decide)).1 0
    simpa using h⟩

theorem Countdown_true_regs (m : Machine) :
    (Countdown true m).cop0r12 = m.cop0r12 &&& 0xFFFFFFFE
    ∧ (Countdown true m).I_MASK = m.I_MASK
    ∧ (Countdown true m).lastIRQMask = m.I_MASK := by
  simp [Countdown, countdownFrames, StartDraw, EndDraw, FntPrint, Delay, emit, EnterCritical,
    InCriticalSection]

theorem Countdown_false_regs (m : Machine) :
    (Countdown false m).cop0r12 = m.cop0r12 ||| 0x01 ||| 0xFF00
    ∧ (Countdown false m).I_MASK = m.lastIRQMask
    ∧ (Countdown false m).lastIRQMask = m.lastIRQMask := by
  simp [Countdown, countdownFrames, StartDraw, EndDraw, FntPrint, Delay, emit, ExitCritical,
    wasInCritical]

/-- C1: from any machine with interrupts enabled (bit 0 of the status
register set), whatever I_MASK holds and whatever status code the external
operation returns, as long as the operation leaves the status register, I_MASK
and `lastIRQMask` alone: after `Countdown(true)`, the operation and
`Countdown(false)` the interrupt-enable bit and I_MASK are what they were
before `Countdown(true)`, and the status code reaches the caller. -/
theorem C1_guard_restores (m : Machine) (op : Machine → Nat × Machine)
    (hIE : m.cop0r12.testBit 0 = true)
    (hop : ∀ x, (op x).2.cop0r12 = x.cop0r12 ∧ (op x).2.I_MASK = x.I_MASK
      ∧ (op x).2.lastIRQMask = x.lastIRQMask) :
    (guarded op m).2.cop0r12.testBit 0 = m.cop0r12.testBit 0
    ∧ (guarded op m).2.I_MASK = m.I_MASK
    ∧ (guarded op m).1 = (op (Countdown true m)).1 := by
  obtain ⟨h1, h2, h3⟩ := Countdown_true_regs m
  obtain ⟨o1, o2, o3⟩ := hop (Countdown true m)
  obtain ⟨f1, f2, f3⟩ := Countdown_false_regs (op (Countdown true m)).2
  refine ⟨?_, ?_, rfl⟩
  · show (Countdown false (op (Countdown true m)).2).cop0r12.testBit 0 = _
    rw [f1, hIE, Nat.testBit_or, Nat.testBit_or]
    simp
  · show (Countdown false (op (Countdown true m)).2).I_MASK = _
    rw [f2, o3, h3]

/-- C1 applies to the idle machine with I_MASK `0x0D` and an operation that
returns the status code 7. -/
theorem C1_guard_restores_witness :
    (guarded (fun x => (7, emit (.MemCardPro (.Ping 0)) x)) (idle 0x0D)).2.cop0r12.testBit 0
      = (idle 0x0D).cop0r12.testBit 0
    ∧ (guarded (fun x => (7, emit (.MemCardPro (.Ping 0)) x)) (idle 0x0D)).2.I_MASK = 0x0D
    ∧ (guarded (fun x => (7, emit (.MemCardPro (.Ping 0)) x)) (idle 0x0D)).1 = 7 :=
  C1_guard_restores (idle 0x0D) (fun x => (7, emit (.MemCardPro (.Ping 0)) x)) (by decide)
    (fun _ => ⟨rfl, rfl, rfl⟩)

/-- C2, evaluated on the code: `Countdown(true)` is entered with interrupts
already disabled (status word `0xFF00`, so `EnterCritical` returns true), and
the matching `Countdown(false)` still calls `ExitCritical` and writes I_MASK:
the status word ends as `0xFF01`, interrupts enabled. -/
theorem C2_nested_exit_reenables :
    (EnterCritical (inCritical 0x0D)).1 = true
    ∧ (guarded (MemCardPro sdk (.Ping 0)) (inCritical 0x0D)).2.cop0r12
        = 0xFF01
    ∧ Nat.testBit
        (guarded (MemCardPro sdk (.Ping 0)) (inCritical 0x0D)).2.cop0r12 0
        = true
    ∧ ((guarded (MemCardPro sdk (.Ping 0)) (inCritical 0x0D)).2.trace).drop 65
        = [.mfc0 0xFF00, .mtc0 0xFF01, .writeIMASK 0x0D] := by
  refine ⟨by decide, by decide, by decide, by decide⟩

/-- C9 fails on the code: in `Countdown(true)` from the idle machine the status
register is written with bit 0 clear (`mtc0 0xFF00`, the ninth event) and
I_MASK is read before the first countdown frame is rendered; the three
"Sending in" frames all come after interrupts have been disabled. -/
theorem C9_countdown_after_disable :
    (Countdown true (idle 0x0D)).trace =
      [.ClearOTag 0, .VSync, .PutDispEnv 1, .PutDrawEnv 1, .DrawOTag 0, .FntFlush,
       .mfc0 0xFF01, .mfc0 0xFF01, .mtc0 0xFF00, .readIMASK 0x0D,
       .ClearOTag 1, .VSync, .FntPrint "Sending in %d (Start Logic Analsyer now)" [3, 0],
       .PutDispEnv 0, .PutDrawEnv 0, .DrawOTag 1, .FntFlush, .Delay,
       .ClearOTag 0, .VSync, .FntPrint "Sending in %d (Start Logic Analsyer now)" [2, 0],
       .PutDispEnv 1, .PutDrawEnv 1, .DrawOTag 0, .FntFlush, .Delay,
       .ClearOTag 1, .VSync, .FntPrint "Sending in %d (Start Logic Analsyer now)" [1, 0],
       .PutDispEnv 0, .PutDrawEnv 0, .DrawOTag 1, .FntFlush, .Delay] := by
  rfl

/-- C9, amended: every execution of `Countdown(true)` first presents one
frame without text (`StartDraw`, `EndDraw`), then makes the nesting check and
disables interrupts (`EnterCritical`), then reads I_MASK into `lastIRQMask`,
and only then renders the three countdown frames "Sending in 3", "2", "1",
each followed by `Delay`; I_MASK is read once and never written. -/
theorem C9_countdown_order (m : Machine) :
    (Countdown true m).trace = m.trace ++
      [.ClearOTag m.activeBuffer, .VSync,
       .PutDispEnv (m.activeBuffer ^^^ 1), .PutDrawEnv (m.activeBuffer ^^^ 1),
       .DrawOTag m.activeBuffer, .FntFlush,
       .mfc0 m.cop0r12, .mfc0 m.cop0r12, .mtc0 (m.cop0r12 &&& 0xFFFFFFFE),
       .readIMASK m.I_MASK,
       .ClearOTag (m.activeBuffer ^^^ 1), .VSync,
       .FntPrint "Sending in %d (Start Logic Analsyer now)" [3, 0],
       .PutDispEnv m.activeBuffer, .PutDrawEnv m.activeBuffer,
       .DrawOTag (m.activeBuffer ^^^ 1), .FntFlush, .Delay,
       .ClearOTag m.activeBuffer, .VSync,
       .FntPrint "Sending in %d (Start Logic Analsyer now)" [2, 0],
       .PutDispEnv (m.activeBuffer ^^^ 1), .PutDrawEnv (m.activeBuffer ^^^ 1),
       .DrawOTag m.activeBuffer, .FntFlush, .Delay,
       .ClearOTag (m.activeBuffer ^^^ 1), .VSync,
       .FntPrint "Sending in %d (Start Logic Analsyer now)" [1, 0],
       .PutDispEnv m.activeBuffer, .PutDrawEnv m.activeBuffer,
       .DrawOTag (m.activeBuffer ^^^ 1), .FntFlush, .Delay]
    ∧ (Countdown true m).lastIRQMask = m.I_MASK
    ∧ (Countdown true m).I_MASK = m.I_MASK
    ∧ (Countdown true m).cop0r12 = m.cop0r12 &&& 0xFFFFFFFE := by
  simp [Countdown, countdownFrames, StartDraw, EndDraw, FntPrint, Delay, emit, EnterCritical,
    InCriticalSection, xor_one_xor_one]

/-! ## Pad handling -/

theorem word_and_ones (b : Nat) (hb : b < 2 ^ 32) : 0xFFFFFFFF &&& b = b := by
  rw [Nat.and_comm]
  have h := Nat.and_pow_two_sub_one_eq_mod b 32
  rw [Nat.mod_eq_of_lt hb] at h
  exact h

/-- C3: with `padVals = p` before, after `UpdatePads` reads `c` the first
`Released(b)` returns true exactly when `b` is absent from `c` and present in
`p`; when `c` is `0xFFFFFFFF` it returns false for every button and leaves
`lastPadVals` as it is. -/
theorem C3_released_iff (m : Machine) (c b : Nat) (hb : b < 2 ^ 32) :
    ((Released b (UpdatePads c m)).1 = true ↔ (c &&& b = 0 ∧ m.padVals &&& b ≠ 0))
    ∧ (c = 0xFFFFFFFF → ∀ b2, (Released b2 (UpdatePads c m)).1 = false
        ∧ (Released b2 (UpdatePads c m)).2.lastPadVals = (UpdatePads c m).lastPadVals) := by
  constructor
  · by_cases hc : c = 0xFFFFFFFF
    · subst hc
      have : ¬ (0xFFFFFFFF &&& b = 0 ∧ m.padVals &&& b ≠ 0) := by
        rintro ⟨h1, h2⟩
        rw [word_and_ones b hb] at h1
        subst h1
        simp at h2
      simp only [Released, UpdatePads, emit, this, iff_false]
      simp
    · by_cases h1 : c &&& b = 0 <;> by_cases h2 : m.padVals &&& b = 0 <;>
        simp [Released, UpdatePads, emit, hc, h1, h2]
  · intro hc b2
    subst hc
    simp [Released, UpdatePads, emit]

/-- C3 applies to a release of L1 (mask 4): held in the previous reading,
absent from the current one. -/
theorem C3_released_iff_witness :
    (4 : Nat) < 2 ^ 32
    ∧ (Released 4 (UpdatePads 0 (UpdatePads 4 (idle 0)))).1 = true :=
  ⟨by decide,
   (C3_released_iff (UpdatePads 4 (idle 0)) 0 4 (by decide)).1.mpr ⟨by decide, by decide⟩⟩

/-- When every bit of the mask is set in `lastPadVals`, as for a single
button that was held, the `^=` of line 79 does clear the event: after a true
`Released(b)` the bits of `b` are gone from `lastPadVals` and the next call
returns false. -/
theorem Released_one_shot (b : Nat) (m : Machine) (hsub : m.lastPadVals &&& b = b)
    (h : (Released b m).1 = true) :
    (Released b m).2.lastPadVals &&& b = 0 ∧ (Released b (Released b m).2).1 = false := by
  have hx : (m.lastPadVals ^^^ b) &&& b = 0 := by
    rw [Nat.and_xor_distrib_right, hsub, Nat.and_self, Nat.xor_self]
  unfold Released at h ⊢
  dsimp only at h ⊢
  by_cases hc : m.padVals = 0xFFFFFFFF
  · simp [hc] at h
  · by_cases hr : (m.padVals &&& b == 0 && m.lastPadVals &&& b != 0) = true
    · simp [hc, hr, hx]
    · simp [hc, hr] at h

/-- C4 fails for a mask with several bits of which only some were held: L2
(mask 1) was held and is released, and `Released` is asked for the two-button
mask L2|R2 = 3.  The call returns true and leaves `lastPadVals = 2` (the `^=`
of line 79 sets the R2 bit of the mask), and the second call, with no
`UpdatePads` in between, returns true again. -/
theorem C4_two_button_mask_retriggers :
    (UpdatePads 0 (UpdatePads 1 (idle 0))).padVals = 0
    ∧ (UpdatePads 0 (UpdatePads 1 (idle 0))).lastPadVals = 1
    ∧ (Released 3 (UpdatePads 0 (UpdatePads 1 (idle 0)))).1 = true
    ∧ (Released 3 (UpdatePads 0 (UpdatePads 1 (idle 0)))).2.lastPadVals = 2
    ∧ (Released 3 (Released 3 (UpdatePads 0 (UpdatePads 1 (idle 0)))).2).1 = true := by
  refine ⟨by decide, by decide, by decide, by decide, by decide⟩

/-- C4, amended: for every pad state and every button mask `b` that is a
single button (one bit) or, more generally, has all its bits set in
`lastPadVals`: if `Released(b)` returns true then the bits of `b` are cleared
from `lastPadVals`, and a second call `Released(b)` made immediately
afterwards, with no `UpdatePads` in between, returns false. -/
theorem C4_one_shot (b : Nat) (m : Machine)
    (hb : (∃ k, b = 2 ^ k) ∨ m.lastPadVals &&& b = b)
    (h : (Released b m).1 = true) :
    (Released b m).2.lastPadVals &&& b = 0 ∧ (Released b (Released b m).2).1 = false := by
  refine Released_one_shot b m ?_ h
  rcases hb with ⟨k, rfl⟩ | hsub
  · have hne : m.lastPadVals &&& 2 ^ k ≠ 0 := by
      unfold Released at h
      dsimp only at h
      by_cases hc : m.padVals = 0xFFFFFFFF
      · simp [hc] at h
      · intro h0
        simp [hc, h0] at h
    rw [Nat.and_two_pow] at hne ⊢
    cases hbit : m.lastPadVals.testBit k
    · simp [hbit] at hne
    · simp
  · exact hsub

/-- C4 as amended applies to a release of L1 (mask 4, one bit): the first
`Released(4)` is true, the second is false. -/
theorem C4_one_shot_witness :
    ((∃ k, (4 : Nat) = 2 ^ k) ∨ (UpdatePads 0 (UpdatePads 4 (idle 0))).lastPadVals &&& 4 = 4)
    ∧ (Released 4 (UpdatePads 0 (UpdatePads 4 (idle 0)))).1 = true
    ∧ (Released 4 (Released 4 (UpdatePads 0 (UpdatePads 4 (idle 0)))).2).1 = false :=
  ⟨Or.inl ⟨2, rfl⟩, by decide,
    (C4_one_shot 4 (UpdatePads 0 (UpdatePads 4 (idle 0))) (Or.inl ⟨2, rfl⟩) (by decide)).2⟩

/-! ## Frame handling -/

/-- C6 fails on the code: with `activeBuffer = 0`, `EndDraw` publishes the
display and draw environments of slot 0 and draws the list of slot 1; no
descriptor of slot `0 ^ 1 = 1` is published. -/
theorem C6_descriptors_of_active_slot :
    (idle 0).activeBuffer = 0
    ∧ (EndDraw (idle 0)).trace = [.PutDispEnv 0, .PutDrawEnv 0, .DrawOTag 1, .FntFlush]
    ∧ Event.PutDispEnv (0 ^^^ 1) ∉ (EndDraw (idle 0)).trace
    ∧ Event.PutDrawEnv (0 ^^^ 1) ∉ (EndDraw (idle 0)).trace := by
  refine ⟨by decide, by decide, by decide, by decide⟩

/-- C6, amended: for `activeBuffer = a` in {0,1}, `EndDraw` publishes the
display-environment and draw-environment descriptors of slot `a`, issues the
draw list of the other slot `a ^ 1`, flushes the text, and leaves
`activeBuffer` unchanged. -/
theorem C6_end_draw (m : Machine) (ha : m.activeBuffer ≤ 1) :
    (EndDraw m).trace = m.trace ++
      [.PutDispEnv m.activeBuffer, .PutDrawEnv m.activeBuffer,
       .DrawOTag (m.activeBuffer ^^^ 1), .FntFlush]
    ∧ m.activeBuffer ^^^ 1 = 1 - m.activeBuffer
    ∧ (EndDraw m).activeBuffer = m.activeBuffer := by
  refine ⟨by simp [EndDraw, emit], ?_, by simp [EndDraw, emit]⟩
  generalize m.activeBuffer = a at ha
  interval_cases a <;> rfl

/-- C6 as amended applies to the machine `main` hands to `DrawLoop`. -/
theorem C6_end_draw_witness :
    (idle 0).activeBuffer ≤ 1
    ∧ (EndDraw (idle 0)).trace = [.PutDispEnv 0, .PutDrawEnv 0, .DrawOTag 1, .FntFlush] :=
  ⟨by decide, (C6_end_draw (idle 0) (by decide)).1⟩

theorem StartDraw_activeBuffer (m : Machine) (ha : m.activeBuffer ≤ 1) :
    (StartDraw m).activeBuffer = 1 - m.activeBuffer := by
  simp only [StartDraw, emit]
  generalize m.activeBuffer = a at ha
  interval_cases a <;> rfl

theorem runCalls_activeBuffer (cs : List DrawCall) :
    ∀ m : Machine, m.activeBuffer ≤ 1 →
      (runCalls cs m).activeBuffer = (m.activeBuffer + cs.count .StartDraw) % 2 := by
  induction cs with
  | nil =>
    intro m ha
    simp only [runCalls, List.count_nil, Nat.add_zero]
    omega
  | cons c cs ih =>
    intro m ha
    cases c with
    | StartDraw =>
      have h1 := StartDraw_activeBuffer m ha
      have h2 : (StartDraw m).activeBuffer ≤ 1 := by omega
      simp only [runCalls, List.count_cons_self]
      rw [ih (StartDraw m) h2, h1]
      omega
    | EndDraw =>
      have h1 : (EndDraw m).activeBuffer = m.activeBuffer := by simp [EndDraw, emit]
      have h2 : List.count DrawCall.StartDraw (DrawCall.EndDraw :: cs)
          = List.count DrawCall.StartDraw cs := by
        rw [List.count_cons]
        simp
      simp only [runCalls]
      rw [ih (EndDraw m) (by omega), h1, h2]

/-- C7: from `activeBuffer = 0`, after any finite sequence of `StartDraw` and
`EndDraw` calls `activeBuffer` is the number of `StartDraw` calls modulo 2, so
it stays in {0,1}; each `StartDraw` clears the draw list of the slot it finds,
waits for the vertical blank and flips the index to the other value;
`EndDraw` does not change it. -/
theorem C7_active_buffer_alternates (cs : List DrawCall) (m : Machine)
    (h0 : m.activeBuffer = 0) :
    (runCalls cs m).activeBuffer = cs.count .StartDraw % 2
    ∧ (runCalls cs m).activeBuffer ≤ 1
    ∧ (StartDraw (runCalls cs m)).activeBuffer = 1 - (runCalls cs m).activeBuffer
    ∧ (StartDraw (runCalls cs m)).trace
        = (runCalls cs m).trace ++ [.ClearOTag (runCalls cs m).activeBuffer, .VSync]
    ∧ (EndDraw (runCalls cs m)).activeBuffer = (runCalls cs m).activeBuffer := by
  have h := runCalls_activeBuffer cs m (by omega)
  rw [h0, Nat.zero_add] at h
  have hle : (runCalls cs m).activeBuffer ≤ 1 := by omega
  exact ⟨h, hle, StartDraw_activeBuffer _ hle, by simp [StartDraw, emit], by simp [EndDraw, emit]⟩

/-- C7 applies to the machine `main` hands to `DrawLoop`: after three
`StartDraw` calls with `EndDraw` calls in between the index is 1. -/
theorem C7_active_buffer_alternates_witness :
    (idle 0).activeBuffer = 0
    ∧ (runCalls [.StartDraw, .EndDraw, .StartDraw, .StartDraw, .EndDraw] (idle 0)).activeBuffer
        = 1 :=
  ⟨rfl, (C7_active_buffer_alternates [.StartDraw, .EndDraw, .StartDraw, .StartDraw, .EndDraw]
    (idle 0) rfl).1⟩

/-! ## The menu loop: frame calls -/

theorem drawCalls_append (s t : List Event) : drawCalls (s ++ t) = drawCalls s ++ drawCalls t := by
  simp [drawCalls]

theorem nesting_append (bound : Nat) (s t : List DrawCall) :
    ∀ d, nesting bound d (s ++ t) = (nesting bound d s).bind fun d2 => nesting bound d2 t := by
  induction s with
  | nil => intro d; simp [nesting]
  | cons c s ih =>
    intro d
    cases c with
    | StartDraw =>
      by_cases h : d < bound <;> simp [nesting, h, ih]
    | EndDraw =>
      by_cases h : 0 < d <;> simp [nesting, h, ih]

theorem FrameStep.of_machine {d d2 : Nat} {m m2 : Machine} (D : List DrawCall)
    (h : drawCalls m2.trace = drawCalls m.trace ++ D) (hn : nesting 2 d D = some d2)
    (pads : List Nat) : FrameStep d d2 m (.running pads m2) :=
  ⟨D, h, hn⟩

theorem FrameStep.pre {d d1 d2 : Nat} {m m1 : Machine} {o : Outcome} (D : List DrawCall)
    (h : drawCalls m1.trace = drawCalls m.trace ++ D) (hn : nesting 2 d D = some d1)
    (ho : FrameStep d1 d2 m1 o) : FrameStep d d2 m o := by
  obtain ⟨E, hE, hm⟩ := ho
  refine ⟨D ++ E, by rw [hE, h, List.append_assoc], ?_⟩
  cases o <;> simp_all [nesting_append]

theorem FrameStep.bind {d d1 d2 : Nat} {m : Machine} {o : Outcome}
    {k : List Nat → Machine → Outcome} (ho : FrameStep d d1 m o)
    (hk : ∀ pads m2, FrameStep d1 d2 m2 (k pads m2)) : FrameStep d d2 m (o.bind k) := by
  cases o with
  | running pads m2 =>
    obtain ⟨D, hD, hn⟩ := ho
    exact FrameStep.pre D hD hn (hk pads m2)
  | rebooted m2 => exact ho
  | starved m2 => exact ho

theorem FrameStep.stop {d d2 : Nat} {m : Machine} {o : Outcome} (h : FrameStep d d2 m o) :
    ∃ D, drawCalls o.machine.trace = drawCalls m.trace ++ D ∧ (nesting 2 d D).isSome = true := by
  obtain ⟨D, hD, hn⟩ := h
  refine ⟨D, hD, ?_⟩
  cases o <;> simp_all

theorem Released_trace (b : Nat) (m : Machine) : (Released b m).2.trace = m.trace := by
  unfold Released
  dsimp only
  split_ifs <;> rfl

theorem guarded_drawCalls (X : Externals) (cmd : Cmd) (m : Machine) :
    drawCalls (guarded (MemCardPro X cmd) m).2.trace = drawCalls m.trace ++ guardedCalls := by
  simp [guardedCalls, guarded, MemCardPro, Countdown, countdownFrames, StartDraw, EndDraw, FntPrint, Delay,
    emit, EnterCritical, InCriticalSection, ExitCritical, wasInCritical, drawCalls,
    Event.drawCall]

theorem QuickMessage_frames (X : Externals) (message : String) (param0 param1 : Nat)
    (pads : List Nat) :
    ∀ m, FrameStep 1 1 m (QuickMessage X message param0 param1 pads m) := by
  induction pads with
  | nil =>
    intro m
    unfold QuickMessage
    simp only
    split
    · exact FrameStep.of_machine [] (by simp [Released_trace]) rfl _
    · split
      · exact FrameStep.of_machine [] (by simp [Released_trace]) rfl _
      · exact ⟨[.StartDraw], by
          simp [StartDraw, FntPrint, emit, Released_trace, drawCalls, Event.drawCall,
            Outcome.machine], rfl⟩
  | cons c pads ih =>
    intro m
    unfold QuickMessage
    simp only
    split
    · exact FrameStep.of_machine [] (by simp [Released_trace]) rfl _
    · split
      · exact FrameStep.of_machine [] (by simp [Released_trace]) rfl _
      · exact FrameStep.pre [.StartDraw, .EndDraw] (by
          simp [StartDraw, EndDraw, UpdatePads, FntPrint, emit, Released_trace, drawCalls,
            Event.drawCall]) rfl (ih _)

theorem navBlock_frames (X : Externals) (button : Nat) (cmd : Cmd) (m : Machine) :
    ∃ D, drawCalls (navBlock X button cmd m).trace = drawCalls m.trace ++ D ∧
      nesting 2 1 D = some 1 := by
  unfold navBlock
  dsimp only
  split
  · exact ⟨guardedCalls, by rw [guarded_drawCalls, Released_trace], rfl⟩
  · exact ⟨[], by simp [Released_trace], rfl⟩

theorem pingBlock_frames (X : Externals) (pads : List Nat) (m : Machine) :
    FrameStep 1 1 m (pingBlock X pads m) := by
  unfold pingBlock
  dsimp only
  split
  · exact FrameStep.pre guardedCalls (by rw [guarded_drawCalls, Released_trace]) rfl
      (QuickMessage_frames X _ _ _ pads _)
  · exact FrameStep.of_machine [] (by simp [Released_trace]) rfl _

theorem sendBlock_frames (X : Externals) (button : Nat) (gameID : String) (pads : List Nat)
    (m : Machine) : FrameStep 1 1 m (sendBlock X button gameID pads m) := by
  unfold sendBlock SendGameID
  dsimp only
  split
  · exact FrameStep.pre guardedCalls (by rw [guarded_drawCalls, Released_trace]) rfl
      (QuickMessage_frames X _ _ _ pads _)
  · exact FrameStep.of_machine [] (by simp [Released_trace]) rfl _

theorem DrawLoopBody_cons (X : Externals) (reading : Nat) (pads : List Nat) (m : Machine) :
    DrawLoopBody X (reading :: pads) m =
      if (Released X.PADstart
          (navBlock X X.PADR2 (.NextDIR X.MCPRO_PORT_0)
          (navBlock X X.PADL2 (.PrevDIR X.MCPRO_PORT_0)
          (navBlock X X.PADR1 (.NextCH X.MCPRO_PORT_0)
          (navBlock X X.PADL1 (.PrevCH X.MCPRO_PORT_0)
          (menuText (UpdatePads reading (StartDraw m)))))))).1 = true
      then .rebooted (emit .Reboot (Released X.PADstart
          (navBlock X X.PADR2 (.NextDIR X.MCPRO_PORT_0)
          (navBlock X X.PADL2 (.PrevDIR X.MCPRO_PORT_0)
          (navBlock X X.PADR1 (.NextCH X.MCPRO_PORT_0)
          (navBlock X X.PADL1 (.PrevCH X.MCPRO_PORT_0)
          (menuText (UpdatePads reading (StartDraw m)))))))).2)
      else
        (pingBlock X pads (Released X.PADstart
          (navBlock X X.PADR2 (.NextDIR X.MCPRO_PORT_0)
          (navBlock X X.PADL2 (.PrevDIR X.MCPRO_PORT_0)
          (navBlock X X.PADR1 (.NextCH X.MCPRO_PORT_0)
          (navBlock X X.PADL1 (.PrevCH X.MCPRO_PORT_0)
          (menuText (UpdatePads reading (StartDraw m)))))))).2).bind fun pads m =>
        (sendBlock X X.PADRleft "cdrom:SCUS_944.55;1" pads m).bind fun pads m =>
        (sendBlock X X.PADRup "SCUS_944.55" pads m).bind fun pads m =>
        (sendBlock X X.PADRright
          "VeryLongFileNameTestEndingWithAPredictableBytePattern010101" pads m).bind fun pads m =>
        .running pads (EndDraw m) := by
  unfold DrawLoopBody
  dsimp only

theorem menu_drawCalls (reading : Nat) (m : Machine) :
    drawCalls (menuText (UpdatePads reading (StartDraw m))).trace
      = drawCalls m.trace ++ [.StartDraw] := by
  simp [menuText, UpdatePads, StartDraw, FntPrint, emit, drawCalls, Event.drawCall]

theorem EndDraw_drawCalls (m : Machine) :
    drawCalls (EndDraw m).trace = drawCalls m.trace ++ [.EndDraw] := by
  simp [EndDraw, emit, drawCalls, Event.drawCall]

theorem DrawLoopBody_frames (X : Externals) (pads : List Nat) (m : Machine) :
    FrameStep 0 0 m (DrawLoopBody X pads m) := by
  cases pads with
  | nil =>
    exact ⟨[.StartDraw], by
      simp [DrawLoopBody, Outcome.machine, StartDraw, emit, drawCalls, Event.drawCall], rfl⟩
  | cons c pads =>
    rw [DrawLoopBody_cons]
    refine FrameStep.pre [.StartDraw] (menu_drawCalls c m) rfl ?_
    obtain ⟨D1, h1, n1⟩ := navBlock_frames X X.PADL1 (.PrevCH X.MCPRO_PORT_0)
      (menuText (UpdatePads c (StartDraw m)))
    refine FrameStep.pre D1 h1 n1 ?_
    obtain ⟨D2, h2, n2⟩ := navBlock_frames X X.PADR1 (.NextCH X.MCPRO_PORT_0)
      (navBlock X X.PADL1 (.PrevCH X.MCPRO_PORT_0) (menuText (UpdatePads c (StartDraw m))))
    refine FrameStep.pre D2 h2 n2 ?_
    obtain ⟨D3, h3, n3⟩ := navBlock_frames X X.PADL2 (.PrevDIR X.MCPRO_PORT_0)
      (navBlock X X.PADR1 (.NextCH X.MCPRO_PORT_0)
      (navBlock X X.PADL1 (.PrevCH X.MCPRO_PORT_0) (menuText (UpdatePads c (StartDraw m)))))
    refine FrameStep.pre D3 h3 n3 ?_
    obtain ⟨D4, h4, n4⟩ := navBlock_frames X X.PADR2 (.NextDIR X.MCPRO_PORT_0)
      (navBlock X X.PADL2 (.PrevDIR X.MCPRO_PORT_0)
      (navBlock X X.PADR1 (.NextCH X.MCPRO_PORT_0)
      (navBlock X X.PADL1 (.PrevCH X.MCPRO_PORT_0) (menuText (UpdatePads c (StartDraw m))))))
    refine FrameStep.pre D4 h4 n4 ?_
    generalize navBlock X X.PADR2 (.NextDIR X.MCPRO_PORT_0)
      (navBlock X X.PADL2 (.PrevDIR X.MCPRO_PORT_0)
      (navBlock X X.PADR1 (.NextCH X.MCPRO_PORT_0)
      (navBlock X X.PADL1 (.PrevCH X.MCPRO_PORT_0) (menuText (UpdatePads c (StartDraw m))))))
      = m4
    have h5 : drawCalls (Released X.PADstart m4).2.trace = drawCalls m4.trace ++ [] := by
      simp [Released_trace]
    refine FrameStep.pre [] h5 rfl ?_
    split
    · exact ⟨[], by simp [Outcome.machine, emit, drawCalls, Event.drawCall], rfl⟩
    · refine FrameStep.bind (pingBlock_frames X pads _) fun pads m => ?_
      refine FrameStep.bind (sendBlock_frames X _ _ pads m) fun pads m => ?_
      refine FrameStep.bind (sendBlock_frames X _ _ pads m) fun pads m => ?_
      refine FrameStep.bind (sendBlock_frames X _ _ pads m) fun pads m => ?_
      exact FrameStep.of_machine [.EndDraw] (EndDraw_drawCalls m)
        (show nesting 2 1 [.EndDraw] = some 0 from rfl) pads

theorem DrawLoopFrom_frames (X : Externals) (n : Nat) :
    ∀ pads m, FrameStep 0 0 m (DrawLoopFrom X n pads m) := by
  induction n with
  | zero =>
    intro pads m
    exact FrameStep.of_machine [] (by simp) rfl pads
  | succ n ih =>
    intro pads m
    have hb := DrawLoopBody_frames X pads m
    have e : DrawLoopFrom X (n + 1) pads m
        = (DrawLoopBody X pads m).bind fun pads m => DrawLoopFrom X n pads m := by
      simp only [DrawLoopFrom, Outcome.bind]
    rw [e]
    exact FrameStep.bind hb fun pads m => ih pads m

theorem Released_of_no_edge (b : Nat) (m : Machine)
    (h : releaseEdge m.lastPadVals m.padVals b = false) : Released b m = (false, m) := by
  unfold releaseEdge at h
  unfold Released
  dsimp only
  rw [h]
  simp

theorem navBlock_of_no_edge (X : Externals) (b : Nat) (cmd : Cmd) (m : Machine)
    (h : releaseEdge m.lastPadVals m.padVals b = false) : navBlock X b cmd m = m := by
  unfold navBlock
  rw [Released_of_no_edge b m h]
  rfl

theorem pingBlock_of_no_edge (X : Externals) (pads : List Nat) (m : Machine)
    (h : releaseEdge m.lastPadVals m.padVals X.PADRdown = false) :
    pingBlock X pads m = .running pads m := by
  unfold pingBlock
  rw [Released_of_no_edge _ m h]
  rfl

theorem sendBlock_of_no_edge (X : Externals) (b : Nat) (gameID : String) (pads : List Nat)
    (m : Machine) (h : releaseEdge m.lastPadVals m.padVals b = false) :
    sendBlock X b gameID pads m = .running pads m := by
  unfold sendBlock
  rw [Released_of_no_edge _ m h]
  rfl

theorem menu_pads (reading : Nat) (m : Machine) :
    (menuText (UpdatePads reading (StartDraw m))).lastPadVals = m.padVals
    ∧ (menuText (UpdatePads reading (StartDraw m))).padVals = reading := by
  simp [menuText, UpdatePads, StartDraw, FntPrint, emit]

theorem DrawLoopBody_of_no_edge (X : Externals) (c : Nat) (pads : List Nat) (m : Machine)
    (h : ∀ b ∈ X.buttons, releaseEdge m.padVals c b = false) :
    DrawLoopBody X (c :: pads) m
      = .running pads (EndDraw (menuText (UpdatePads c (StartDraw m)))) := by
  obtain ⟨hl, hp⟩ := menu_pads c m
  have hb : ∀ b ∈ X.buttons,
      releaseEdge (menuText (UpdatePads c (StartDraw m))).lastPadVals
        (menuText (UpdatePads c (StartDraw m))).padVals b = false := by
    intro b hb
    rw [hl, hp]
    exact h b hb
  rw [DrawLoopBody_cons,
    navBlock_of_no_edge X X.PADL1 _ _ (hb _ (by simp [Externals.buttons])),
    navBlock_of_no_edge X X.PADR1 _ _ (hb _ (by simp [Externals.buttons])),
    navBlock_of_no_edge X X.PADL2 _ _ (hb _ (by simp [Externals.buttons])),
    navBlock_of_no_edge X X.PADR2 _ _ (hb _ (by simp [Externals.buttons])),
    Released_of_no_edge X.PADstart _ (hb _ (by simp [Externals.buttons]))]
  simp only [Bool.false_eq_true, if_false]
  rw [pingBlock_of_no_edge X pads _ (hb _ (by simp [Externals.buttons]))]
  simp only [Outcome.bind]
  rw [sendBlock_of_no_edge X X.PADRleft _ pads _ (hb _ (by simp [Externals.buttons]))]
  simp only [Outcome.bind]
  rw [sendBlock_of_no_edge X X.PADRup _ pads _ (hb _ (by simp [Externals.buttons]))]
  simp only [Outcome.bind]
  rw [sendBlock_of_no_edge X X.PADRright _ pads _ (hb _ (by simp [Externals.buttons]))]

set_option maxRecDepth 100000 in
/-- C8 fails on the code: L1 is held in the first reading and released in the
second.  The second iteration calls `StartDraw`, then `Countdown(true)` calls
`StartDraw` again with no `EndDraw` in between, and after the last countdown
frame the loop calls `EndDraw` a second time with no `StartDraw` in between. -/
theorem C8_start_draw_twice :
    drawCalls (DrawLoop sdk 2 [4, 0] (idle 0)).machine.trace =
      [.StartDraw, .EndDraw,
       .StartDraw,
       .StartDraw, .EndDraw, .StartDraw, .EndDraw, .StartDraw, .EndDraw, .StartDraw, .EndDraw,
       .StartDraw, .EndDraw, .StartDraw, .EndDraw, .StartDraw, .EndDraw, .StartDraw, .EndDraw,
       .EndDraw]
    ∧ alternates (drawCalls (DrawLoop sdk 2 [4, 0] (idle 0)).machine.trace) = false := by
  have h : drawCalls (DrawLoop sdk 2 [4, 0] (idle 0)).machine.trace =
      [.StartDraw, .EndDraw,
       .StartDraw,
       .StartDraw, .EndDraw, .StartDraw, .EndDraw, .StartDraw, .EndDraw, .StartDraw, .EndDraw,
       .StartDraw, .EndDraw, .StartDraw, .EndDraw, .StartDraw, .EndDraw, .StartDraw, .EndDraw,
       .EndDraw] := by
    decide
  exact ⟨h, by rw [h]; decide⟩

/-- C8, amended: in every execution of `DrawLoop`, for every sequence of pad
readings, the `StartDraw` and `EndDraw` calls are properly bracketed, beginning
with `StartDraw`, with never more than two `StartDraw` calls open (that of the
loop body, and one of `Countdown` or `QuickMessage`, which is closed by its
`EndDraw` before the next `StartDraw`); on an iteration in which no
release-edge is true the loop body calls `StartDraw` once and then `EndDraw`
once. -/
theorem C8_frames_nest_two_deep (X : Externals) (n : Nat) (pads : List Nat) (m : Machine) :
    (∃ D, drawCalls (DrawLoop X n pads m).machine.trace = drawCalls m.trace ++ D
      ∧ (nesting 2 0 D).isSome = true)
    ∧ (∀ c, (∀ b ∈ X.buttons, releaseEdge m.padVals c b = false) →
        ∃ m2, DrawLoopBody X (c :: pads) m = .running pads m2
          ∧ drawCalls m2.trace = drawCalls m.trace ++ [.StartDraw, .EndDraw]) := by
  constructor
  · have h0 : drawCalls (emit (.printf "Program started...\n")
        { { m with padVals := 0 } with lastPadVals := 0 }).trace = drawCalls m.trace ++ [] := by
      simp [emit, drawCalls, Event.drawCall]
    exact (FrameStep.pre [] h0 rfl (DrawLoopFrom_frames X n pads _)).stop
  · intro c h
    refine ⟨_, DrawLoopBody_of_no_edge X c pads m h, ?_⟩
    rw [EndDraw_drawCalls, menu_drawCalls, List.append_assoc]
    rfl

/-- C8 as amended applies to an iteration that reads no button at all. -/
theorem C8_frames_nest_two_deep_witness :
    (∀ b ∈ sdk.buttons, releaseEdge (idle 0).padVals 0 b = false)
    ∧ ∃ m2, DrawLoopBody sdk [0] (idle 0) = .running [] m2
        ∧ drawCalls m2.trace = drawCalls (idle 0).trace ++ [.StartDraw, .EndDraw] :=
  ⟨by decide, (C8_frames_nest_two_deep sdk 1 [] (idle 0)).2 0 (by decide)⟩

/-! ## The menu loop: dispatched commands -/

theorem commands_append (s t : List Event) : commands (s ++ t) = commands s ++ commands t := by
  simp [commands]

theorem guarded_commands (X : Externals) (cmd : Cmd) (m : Machine) :
    commands (guarded (MemCardPro X cmd) m).2.trace = commands m.trace ++ [cmd]
    ∧ (guarded (MemCardPro X cmd) m).2.padVals = m.padVals
    ∧ (guarded (MemCardPro X cmd) m).2.lastPadVals = m.lastPadVals := by
  simp [guarded, MemCardPro, Countdown, countdownFrames, StartDraw, EndDraw, FntPrint, Delay,
    emit, EnterCritical, InCriticalSection, ExitCritical, wasInCritical, commands,
    Event.command]

theorem Released_fst (b : Nat) (m : Machine) (hb : b < 2 ^ 32) :
    (Released b m).1 = releaseEdge m.lastPadVals m.padVals b := by
  unfold Released releaseEdge
  dsimp only
  by_cases hc : m.padVals = 0xFFFFFFFF
  · rw [if_pos hc, hc]
    by_cases h0 : b = 0
    · subst h0; simp
    · have : ¬ (0xFFFFFFFF &&& b = 0) := by rw [word_and_ones b hb]; exact h0
      simp [this]
  · rw [if_neg hc]
    split_ifs <;> rfl

theorem Released_snd (b : Nat) (m : Machine) :
    (Released b m).2.padVals = m.padVals
    ∧ ∀ b2, b &&& b2 = 0 → (Released b m).2.lastPadVals &&& b2 = m.lastPadVals &&& b2 := by
  unfold Released
  dsimp only
  split_ifs
  · exact ⟨rfl, fun _ _ => rfl⟩
  · refine ⟨rfl, fun b2 h => ?_⟩
    show (m.lastPadVals ^^^ b) &&& b2 = _
    rw [Nat.and_xor_distrib_right, h, Nat.xor_zero]
  · exact ⟨rfl, fun _ _ => rfl⟩

theorem releaseEdge_congr {l p b : Nat} (c : Nat) (h : l &&& b = p &&& b) :
    releaseEdge l c b = releaseEdge p c b := by
  unfold releaseEdge
  rw [h]

theorem navBlock_spec (X : Externals) (b : Nat) (cmd : Cmd) (m : Machine) (hb : b < 2 ^ 32) :
    commands (navBlock X b cmd m).trace
      = commands m.trace ++ (if releaseEdge m.lastPadVals m.padVals b then [cmd] else [])
    ∧ (navBlock X b cmd m).padVals = m.padVals
    ∧ ∀ b2, b &&& b2 = 0 → (navBlock X b cmd m).lastPadVals &&& b2 = m.lastPadVals &&& b2 := by
  obtain ⟨hp, hl⟩ := Released_snd b m
  have hf := Released_fst b m hb
  unfold navBlock
  dsimp only
  rw [← hf]
  split_ifs with h
  · obtain ⟨g1, g2, g3⟩ := guarded_commands X cmd (Released b m).2
    refine ⟨by rw [g1, Released_trace], by rw [g2, hp], fun b2 h2 => by rw [g3, hl b2 h2]⟩
  · exact ⟨by simp [Released_trace], hp, hl⟩

theorem QuickMessage_commands (X : Externals) (message : String) (param0 param1 : Nat)
    (pads : List Nat) :
    ∀ m, commands (QuickMessage X message param0 param1 pads m).machine.trace
      = commands m.trace := by
  induction pads with
  | nil =>
    intro m
    unfold QuickMessage
    dsimp only
    split_ifs <;>
      simp [Outcome.machine, Released_trace, StartDraw, FntPrint, emit, commands, Event.command]
  | cons c pads ih =>
    intro m
    unfold QuickMessage
    dsimp only
    split_ifs
    · simp [Outcome.machine, Released_trace]
    · simp [Outcome.machine, Released_trace]
    · rw [ih]
      simp [Released_trace, StartDraw, EndDraw, UpdatePads, FntPrint, emit, commands,
        Event.command]

theorem menu_commands (reading : Nat) (m : Machine) :
    commands (menuText (UpdatePads reading (StartDraw m))).trace = commands m.trace := by
  simp [menuText, UpdatePads, StartDraw, FntPrint, emit, commands, Event.command]

set_option maxRecDepth 100000 in
/-- C5 fails on the code: L1 and R1 (masks 4 and 8) are both held in the
previous reading and both absent from the current one; one execution of the
loop body invokes `MemCardPro_PrevCH` and then `MemCardPro_NextCH`. -/
theorem C5_two_commands_in_one_iteration :
    (UpdatePads 12 (idle 0)).padVals = 12
    ∧ commands (UpdatePads 12 (idle 0)).trace = []
    ∧ commands (DrawLoopBody sdk [0] (UpdatePads 12 (idle 0))).machine.trace
        = [.PrevCH 0, .NextCH 0] := by
  refine ⟨by decide, by decide, by decide⟩

/-! ## The menu loop: the tests that end in the prompt -/

theorem Released_eq (b : Nat) (m : Machine) (hb : b < 2 ^ 32) :
    Released b m = (releaseEdge m.lastPadVals m.padVals b,
      if releaseEdge m.lastPadVals m.padVals b
      then { m with lastPadVals := m.lastPadVals ^^^ b } else m) := by
  have hf := Released_fst b m hb
  rw [← hf]
  unfold Released
  dsimp only
  split_ifs <;> simp_all

theorem QuickMessage_padView (X : Externals) (message : String) (param0 param1 : Nat)
    (h6 : X.PADRdown < 2 ^ 32) (h5 : X.PADstart < 2 ^ 32) (pads : List Nat) :
    ∀ m, (QuickMessage X message param0 param1 pads m).padView
      = promptPads X pads m.lastPadVals m.padVals := by
  induction pads with
  | nil =>
    intro m
    unfold QuickMessage promptPads
    rw [Released_eq _ _ h6]
    dsimp only
    by_cases e6 : releaseEdge m.lastPadVals m.padVals X.PADRdown = true
    · simp [e6, Outcome.padView]
    · rw [if_neg e6, if_neg e6, if_neg e6, Released_eq _ _ h5]
      dsimp only
      by_cases e5 : releaseEdge m.lastPadVals m.padVals X.PADstart = true
      · simp [e5, Outcome.padView]
      · simp [e5, Outcome.padView]
  | cons c pads ih =>
    intro m
    unfold QuickMessage promptPads
    rw [Released_eq _ _ h6]
    dsimp only
    by_cases e6 : releaseEdge m.lastPadVals m.padVals X.PADRdown = true
    · simp [e6, Outcome.padView]
    · rw [if_neg e6, if_neg e6, if_neg e6, Released_eq _ _ h5]
      dsimp only
      by_cases e5 : releaseEdge m.lastPadVals m.padVals X.PADstart = true
      · simp [e5, Outcome.padView]
      · rw [if_neg e5, if_neg e5, if_neg e5, ih]
        simp [StartDraw, EndDraw, UpdatePads, FntPrint, emit]

theorem guardedPrompt_view (X : Externals) (h6 : X.PADRdown < 2 ^ 32)
    (h5 : X.PADstart < 2 ^ 32) (cmd : Cmd) (message : String) (param1 : Nat)
    (pads : List Nat) (m : Machine) :
    (QuickMessage X message (guarded (MemCardPro X cmd) m).1 param1 pads
        (guarded (MemCardPro X cmd) m).2).padView
      = promptPads X pads m.lastPadVals m.padVals
    ∧ commands (QuickMessage X message (guarded (MemCardPro X cmd) m).1 param1 pads
        (guarded (MemCardPro X cmd) m).2).machine.trace = commands m.trace ++ [cmd] := by
  obtain ⟨g1, g2, g3⟩ := guarded_commands X cmd m
  rw [QuickMessage_padView X _ _ _ h6 h5, QuickMessage_commands, g1, g2, g3]
  exact ⟨rfl, rfl⟩

theorem pingBlock_view (X : Externals) (h6 : X.PADRdown < 2 ^ 32) (h5 : X.PADstart < 2 ^ 32)
    (pads : List Nat) (m : Machine) :
    (pingBlock X pads m).padView
      = (if releaseEdge m.lastPadVals m.padVals X.PADRdown
         then promptPads X pads (m.lastPadVals ^^^ X.PADRdown) m.padVals
         else some (pads, m.lastPadVals, m.padVals))
    ∧ commands (pingBlock X pads m).machine.trace = commands m.trace ++
        (if releaseEdge m.lastPadVals m.padVals X.PADRdown
         then [.Ping X.MCPRO_PORT_0] else []) := by
  unfold pingBlock
  rw [Released_eq _ _ h6]
  dsimp only
  by_cases e : releaseEdge m.lastPadVals m.padVals X.PADRdown = true
  · rw [if_pos e, if_pos e, if_pos e, if_pos e]
    exact guardedPrompt_view X h6 h5 _ _ _ pads _
  · rw [if_neg e, if_neg e, if_neg e, if_neg e]
    simp [Outcome.padView, Outcome.machine]

theorem sendBlock_view (X : Externals) (h6 : X.PADRdown < 2 ^ 32) (h5 : X.PADstart < 2 ^ 32)
    (b : Nat) (hb : b < 2 ^ 32) (gameID : String) (pads : List Nat) (m : Machine) :
    (sendBlock X b gameID pads m).padView
      = (if releaseEdge m.lastPadVals m.padVals b
         then promptPads X pads (m.lastPadVals ^^^ b) m.padVals
         else some (pads, m.lastPadVals, m.padVals))
    ∧ commands (sendBlock X b gameID pads m).machine.trace = commands m.trace ++
        (if releaseEdge m.lastPadVals m.padVals b
         then [.SendGameID X.MCPRO_PORT_0 gameID.utf8ByteSize gameID] else []) := by
  unfold sendBlock SendGameID
  rw [Released_eq _ _ hb]
  dsimp only
  by_cases e : releaseEdge m.lastPadVals m.padVals b = true
  · rw [if_pos e, if_pos e, if_pos e, if_pos e]
    exact guardedPrompt_view X h6 h5 _ _ _ pads _
  · rw [if_neg e, if_neg e, if_neg e, if_neg e]
    simp [Outcome.padView, Outcome.machine]

theorem dispatch_step (X : Externals) (f : List Nat → Machine → Outcome) (b : Nat) (cmd : Cmd)
    (tests : List (Nat × Cmd)) (k : List Nat → Machine → Outcome)
    (hf : ∀ pads m, (f pads m).padView
        = (if releaseEdge m.lastPadVals m.padVals b
           then promptPads X pads (m.lastPadVals ^^^ b) m.padVals
           else some (pads, m.lastPadVals, m.padVals))
      ∧ commands (f pads m).machine.trace = commands m.trace ++
          (if releaseEdge m.lastPadVals m.padVals b then [cmd] else []))
    (hk : ∀ pads m, commands (k pads m).machine.trace
        = commands m.trace ++ dispatchFrom X tests pads m.lastPadVals m.padVals) :
    ∀ pads m, commands ((f pads m).bind k).machine.trace
      = commands m.trace ++ dispatchFrom X ((b, cmd) :: tests) pads m.lastPadVals m.padVals := by
  intro pads m
  obtain ⟨hv, hc⟩ := hf pads m
  rw [dispatchFrom]
  cases ho : f pads m with
  | running pads2 m2 =>
    rw [ho] at hv hc
    simp only [Outcome.padView, Outcome.machine] at hv hc
    simp only [Outcome.bind]
    rw [hk pads2 m2, hc]
    by_cases e : releaseEdge m.lastPadVals m.padVals b = true
    · rw [if_pos e] at hv ⊢
      rw [if_pos e, ← hv]
      simp
    · rw [if_neg e] at hv ⊢
      rw [if_neg e]
      simp only [Option.some.injEq, Prod.mk.injEq] at hv
      obtain ⟨h1, h2, h3⟩ := hv
      rw [h1, h2, h3]
      simp
  | rebooted m2 =>
    rw [ho] at hv hc
    simp only [Outcome.padView, Outcome.machine] at hv hc
    simp only [Outcome.bind, Outcome.machine]
    rw [hc]
    by_cases e : releaseEdge m.lastPadVals m.padVals b = true
    · rw [if_pos e] at hv ⊢
      rw [if_pos e, ← hv]
    · rw [if_neg e] at hv
      exact absurd hv (by simp)
  | starved m2 =>
    rw [ho] at hv hc
    simp only [Outcome.padView, Outcome.machine] at hv hc
    simp only [Outcome.bind, Outcome.machine]
    rw [hc]
    by_cases e : releaseEdge m.lastPadVals m.padVals b = true
    · rw [if_pos e] at hv ⊢
      rw [if_pos e, ← hv]
    · rw [if_neg e] at hv
      exact absurd hv (by simp)

theorem agreeOn_xor {bs : List Nat} {l l2 : Nat} (x : Nat) (h : agreeOn bs l l2) :
    agreeOn bs (l ^^^ x) (l2 ^^^ x) := by
  intro b hb
  rw [Nat.and_xor_distrib_right, Nat.and_xor_distrib_right, h b hb]

theorem promptPads_agree (X : Externals) (bs : List Nat) (h6 : X.PADRdown ∈ bs)
    (h5 : X.PADstart ∈ bs) (pads : List Nat) :
    ∀ l l2 c, agreeOn bs l l2 →
      (promptPads X pads l c = none ∧ promptPads X pads l2 c = none)
      ∨ ∃ pads2 a a2 c2, promptPads X pads l c = some (pads2, a, c2)
          ∧ promptPads X pads l2 c = some (pads2, a2, c2) ∧ agreeOn bs a a2 := by
  induction pads with
  | nil =>
    intro l l2 c h
    unfold promptPads
    rw [releaseEdge_congr c (h _ h6), releaseEdge_congr c (h _ h5)]
    by_cases e6 : releaseEdge l2 c X.PADRdown = true
    · exact Or.inr ⟨_, _, _, _, by rw [if_pos e6], by rw [if_pos e6], agreeOn_xor _ h⟩
    · by_cases e5 : releaseEdge l2 c X.PADstart = true
      · exact Or.inr ⟨_, _, _, _, by rw [if_neg e6, if_pos e5], by rw [if_neg e6, if_pos e5],
          agreeOn_xor _ h⟩
      · exact Or.inl ⟨by rw [if_neg e6, if_neg e5], by rw [if_neg e6, if_neg e5]⟩
  | cons r pads ih =>
    intro l l2 c h
    unfold promptPads
    rw [releaseEdge_congr c (h _ h6), releaseEdge_congr c (h _ h5)]
    by_cases e6 : releaseEdge l2 c X.PADRdown = true
    · exact Or.inr ⟨_, _, _, _, by rw [if_pos e6], by rw [if_pos e6], agreeOn_xor _ h⟩
    · by_cases e5 : releaseEdge l2 c X.PADstart = true
      · exact Or.inr ⟨_, _, _, _, by rw [if_neg e6, if_pos e5], by rw [if_neg e6, if_pos e5],
          agreeOn_xor _ h⟩
      · rw [if_neg e6, if_neg e5, if_neg e6, if_neg e5]
        exact ih c c r (fun _ _ => rfl)

theorem dispatchFrom_agree (X : Externals) (bs : List Nat) (h6 : X.PADRdown ∈ bs)
    (h5 : X.PADstart ∈ bs) (tests : List (Nat × Cmd)) :
    (∀ t ∈ tests, t.1 ∈ bs) → ∀ pads l l2 c, agreeOn bs l l2 →
      dispatchFrom X tests pads l c = dispatchFrom X tests pads l2 c := by
  induction tests with
  | nil =>
    intro _ pads l l2 c _
    simp [dispatchFrom]
  | cons t tests ih =>
    intro ht pads l l2 c h
    obtain ⟨b, cmd⟩ := t
    have hb : b ∈ bs := ht (b, cmd) (by simp)
    have ht2 : ∀ t ∈ tests, t.1 ∈ bs := fun t h => ht t (List.mem_cons_of_mem _ h)
    rw [dispatchFrom, dispatchFrom, releaseEdge_congr c (h b hb)]
    by_cases e : releaseEdge l2 c b = true
    · rw [if_pos e, if_pos e]
      rcases promptPads_agree X bs h6 h5 pads (l ^^^ b) (l2 ^^^ b) c (agreeOn_xor b h) with
        ⟨n1, n2⟩ | ⟨pads2, a, a2, c2, s1, s2, ha⟩
      · rw [n1, n2]
      · rw [s1, s2]
        simp only
        rw [ih ht2 pads2 a a2 c2 ha]
    · rw [if_neg e, if_neg e]
      exact ih ht2 pads l l2 c h

theorem sdk_distinctButtons : sdk.distinctButtons := by
  unfold Externals.distinctButtons
  decide

/-- C5, amended: for every pair of previous and current pad readings (and
every sequence of readings the prompts take afterwards), one execution of the
loop body makes the nine tests in the fixed order L1, R1, L2, R2, start, cross,
square, triangle, circle and invokes the operation of every test whose
release-edge is true when the test is reached, not only of the first.  L1, R1,
L2, R2 are tested on the reading pair itself, so each of them whose
release-edge is true is invoked, in that order; a true start release-edge then
reboots and nothing more is invoked; otherwise cross (ping), square, triangle
and circle (send identifier) are tested in that order, each on the reading
pair itself as long as no prompt has run and on the pad pair the last prompt
left afterwards, and each is invoked exactly when its release-edge is true
there.  When no release-edge is true in the reading pair, nothing is
invoked. -/
theorem C5_every_edge_dispatched (X : Externals) (hX : X.distinctButtons) (m : Machine)
    (c : Nat) (pads : List Nat) :
    commands (DrawLoopBody X (c :: pads) m).machine.trace = commands m.trace
        ++ (if releaseEdge m.padVals c X.PADL1 then [.PrevCH X.MCPRO_PORT_0] else [])
        ++ (if releaseEdge m.padVals c X.PADR1 then [.NextCH X.MCPRO_PORT_0] else [])
        ++ (if releaseEdge m.padVals c X.PADL2 then [.PrevDIR X.MCPRO_PORT_0] else [])
        ++ (if releaseEdge m.padVals c X.PADR2 then [.NextDIR X.MCPRO_PORT_0] else [])
        ++ (if releaseEdge m.padVals c X.PADstart then []
            else dispatchFrom X (promptTests X) pads m.padVals c)
    ∧ (releaseEdge m.padVals c X.PADstart = true →
        ∃ m2, DrawLoopBody X (c :: pads) m = .rebooted m2)
    ∧ ((∀ b ∈ X.buttons, releaseEdge m.padVals c b = false) →
        commands (DrawLoopBody X (c :: pads) m).machine.trace = commands m.trace) := by
  refine ⟨?_, ?_, fun h => by
    rw [DrawLoopBody_of_no_edge X c pads m h]
    simp only [Outcome.machine]
    rw [← menu_commands c m]
    simp [EndDraw, emit, commands, Event.command]⟩
  all_goals
    obtain ⟨hd, hw⟩ := hX
    simp only [Externals.buttons, List.pairwise_cons, List.mem_cons, List.mem_singleton,
      forall_eq_or_imp, forall_eq] at hd hw
    obtain ⟨⟨d12, d13, d14, d15, d16, d17, d18, d19, -⟩, ⟨d23, d24, d25, d26, d27, d28, d29, -⟩,
      ⟨d34, d35, d36, d37, d38, d39, -⟩, ⟨d45, d46, d47, d48, d49, -⟩, -⟩ := hd
    obtain ⟨w1, w2, w3, w4, w5, w6, w7, w8, w9, -⟩ := hw
    rw [DrawLoopBody_cons]
    obtain ⟨hl0, hp0⟩ := menu_pads c m
    have hc0 := menu_commands c m
    generalize menuText (UpdatePads c (StartDraw m)) = m0 at hl0 hp0 hc0 ⊢
    obtain ⟨c1, p1, a1⟩ := navBlock_spec X X.PADL1 (.PrevCH X.MCPRO_PORT_0) m0 w1
    rw [hl0, hp0, hc0] at c1
    rw [hp0] at p1
    have b1 : ∀ b2, X.PADL1 &&& b2 = 0 →
        (navBlock X X.PADL1 (.PrevCH X.MCPRO_PORT_0) m0).lastPadVals &&& b2
          = m.padVals &&& b2 :=
      fun b2 h => by rw [a1 b2 h, hl0]
    clear a1
    generalize navBlock X X.PADL1 (.PrevCH X.MCPRO_PORT_0) m0 = m1 at c1 p1 b1 ⊢
    obtain ⟨c2, p2, a2⟩ := navBlock_spec X X.PADR1 (.NextCH X.MCPRO_PORT_0) m1 w2
    rw [p1, releaseEdge_congr c (b1 _ d12), c1] at c2
    rw [p1] at p2
    have b2 : ∀ b, X.PADL1 &&& b = 0 → X.PADR1 &&& b = 0 →
        (navBlock X X.PADR1 (.NextCH X.MCPRO_PORT_0) m1).lastPadVals &&& b
          = m.padVals &&& b :=
      fun b h1 h2 => by rw [a2 b h2, b1 b h1]
    clear a2
    generalize navBlock X X.PADR1 (.NextCH X.MCPRO_PORT_0) m1 = m2 at c2 p2 b2 ⊢
    obtain ⟨c3, p3, a3⟩ := navBlock_spec X X.PADL2 (.PrevDIR X.MCPRO_PORT_0) m2 w3
    rw [p2, releaseEdge_congr c (b2 _ d13 d23), c2] at c3
    rw [p2] at p3
    have b3 : ∀ b, X.PADL1 &&& b = 0 → X.PADR1 &&& b = 0 → X.PADL2 &&& b = 0 →
        (navBlock X X.PADL2 (.PrevDIR X.MCPRO_PORT_0) m2).lastPadVals &&& b
          = m.padVals &&& b :=
      fun b h1 h2 h3 => by rw [a3 b h3, b2 b h1 h2]
    clear a3
    generalize navBlock X X.PADL2 (.PrevDIR X.MCPRO_PORT_0) m2 = m3 at c3 p3 b3 ⊢
    obtain ⟨c4, p4, a4⟩ := navBlock_spec X X.PADR2 (.NextDIR X.MCPRO_PORT_0) m3 w4
    rw [p3, releaseEdge_congr c (b3 _ d14 d24 d34), c3] at c4
    rw [p3] at p4
    have b4 : ∀ b, X.PADL1 &&& b = 0 → X.PADR1 &&& b = 0 → X.PADL2 &&& b = 0 →
        X.PADR2 &&& b = 0 →
        (navBlock X X.PADR2 (.NextDIR X.MCPRO_PORT_0) m3).lastPadVals &&& b
          = m.padVals &&& b :=
      fun b h1 h2 h3 h4 => by rw [a4 b h4, b3 b h1 h2 h3]
    clear a4
    generalize navBlock X X.PADR2 (.NextDIR X.MCPRO_PORT_0) m3 = m4 at c4 p4 b4 ⊢
    have hs : releaseEdge m4.lastPadVals m4.padVals X.PADstart
        = releaseEdge m.padVals c X.PADstart := by
      rw [p4, releaseEdge_congr c (b4 _ d15 d25 d35 d45)]
    rw [Released_eq _ _ w5, hs]
    dsimp only
  · by_cases hstart : releaseEdge m.padVals c X.PADstart = true
    · rw [if_pos hstart, if_pos hstart, if_pos hstart, List.append_nil, ← c4]
      simp [Outcome.machine, emit, commands, Event.command]
    · rw [if_neg hstart, if_neg hstart, if_neg hstart]
      have hagree : agreeOn
          [X.PADstart, X.PADRdown, X.PADRleft, X.PADRup, X.PADRright] m4.lastPadVals
          m.padVals := by
        intro b hb
        simp only [List.mem_cons, List.mem_singleton, List.not_mem_nil, or_false] at hb
        rcases hb with rfl | rfl | rfl | rfl | rfl
        · exact b4 _ d15 d25 d35 d45
        · exact b4 _ d16 d26 d36 d46
        · exact b4 _ d17 d27 d37 d47
        · exact b4 _ d18 d28 d38 d48
        · exact b4 _ d19 d29 d39 d49
      have k4 : ∀ pads (x : Machine), commands (Outcome.running pads (EndDraw x)).machine.trace
          = commands x.trace ++ dispatchFrom X [] pads x.lastPadVals x.padVals := by
        intro pads x
        simp [Outcome.machine, EndDraw, emit, commands, Event.command, dispatchFrom]
      have k3 := dispatch_step X _ _ _ _ _
        (sendBlock_view X w6 w5 X.PADRright w9
          "VeryLongFileNameTestEndingWithAPredictableBytePattern010101") k4
      have k2 := dispatch_step X _ _ _ _ _
        (sendBlock_view X w6 w5 X.PADRup w8 "SCUS_944.55") k3
      have k1 := dispatch_step X _ _ _ _ _
        (sendBlock_view X w6 w5 X.PADRleft w7 "cdrom:SCUS_944.55;1") k2
      have k0 := dispatch_step X _ _ _ _ _ (pingBlock_view X w6 w5) k1
      rw [k0 pads m4, c4, p4]
      congr 1
      exact dispatchFrom_agree X _ (by simp) (by simp) _ (by simp [promptTests]) pads _ _ c
        hagree
  · intro hstart
    rw [if_pos hstart]
    exact ⟨_, rfl⟩

set_option maxRecDepth 100000 in
/-- C5 as amended applies to the PsyQ button masks.  With L1 and R1 released
together both navigation commands are dispatched, in priority order; with
square alone released the first identifier is sent; with nothing released
nothing is dispatched. -/
theorem C5_every_edge_dispatched_witness :
    sdk.distinctButtons
    ∧ commands (DrawLoopBody sdk [0] (UpdatePads 12 (idle 0))).machine.trace
        = [.PrevCH 0, .NextCH 0]
    ∧ commands (DrawLoopBody sdk [0] (UpdatePads 128 (idle 0))).machine.trace
        = [.SendGameID 0 19 "cdrom:SCUS_944.55;1"]
    ∧ commands (DrawLoopBody sdk [0] (idle 0)).machine.trace = [] :=
  ⟨sdk_distinctButtons,
    (C5_every_edge_dispatched sdk sdk_distinctButtons (UpdatePads 12 (idle 0)) 0 []).1.trans
      (by decide),
    (C5_every_edge_dispatched sdk sdk_distinctButtons (UpdatePads 128 (idle 0)) 0 []).1.trans
      (by decide),
    (C5_every_edge_dispatched sdk sdk_distinctButtons (idle 0) 0 []).2.2 (by decide)⟩

end MCproDemo
